import Mathlib

/-!
Py_GetPlatform (python-for-android).

A shallow embedding of `Python/getplatform.c` in its two variants
(`python-build/python-src` and `python3-alpha/python3-src`), followed by the
properties proved about it.

Memory model.  The static cache (`char PLATFORM[20]`, resp. `char XPLATFORM[20]`)
is a list of bytes.  Every access of the C code to the array goes through `rd` or
`wr`, which fault when the index is not inside the array, so a run that ends in
`Except.ok` has touched indices `0..19` only, and a run that would leave the array
ends in `Except.error` carrying the offending access.

Bytes are natural numbers below 256 (the `unsigned char` value of each `char`); a `char`
store of an `int` is written with an explicit `% 256`.  The result of `uname` is a
parameter of each call: `none` when `uname(&u) < 0`, `some u` otherwise.  The `for` loop
of the code runs on a step budget of one more than the size of the array, which it
cannot exhaust (`lowerLoop_budget`, `call_budget`).
-/

namespace GetPlatform

/-! ## Memory and the libc functions used by the code -/

/-- An access outside the array, or a loop that exhausted its step budget. -/
inductive Fault where
  | oobRead (i : Nat)
  | oobWrite (i : Nat)
  | outOfFuel
  deriving DecidableEq, Repr

/-- Equality of results is decidable, so that a run on concrete inputs can be checked by
evaluation. -/
instance decEqExcept {ε α : Type} [DecidableEq ε] [DecidableEq α] : DecidableEq (Except ε α)
  | .ok a, .ok b => if h : a = b then isTrue (by rw [h]) else isFalse (fun h1 => h (Except.ok.inj h1))
  | .error a, .error b =>
    if h : a = b then isTrue (by rw [h]) else isFalse (fun h1 => h (Except.error.inj h1))
  | .ok _, .error _ => isFalse (fun h => Except.noConfusion h)
  | .error _, .ok _ => isFalse (fun h => Except.noConfusion h)

/-- Contents of a `char` array. -/
abbrev Buffer := List Nat

/-- Read of `buf[i]`. -/
def rd (buf : Buffer) (i : Nat) : Except Fault Nat :=
  match buf[i]? with
  | some c => .ok c
  | none => .error (.oobRead i)

/-- Store `buf[i] = v`. -/
def wr (buf : Buffer) (i : Nat) (v : Nat) : Except Fault Buffer :=
  if i < buf.length then .ok (buf.set i v) else .error (.oobWrite i)

/-- The libc function `tolower` in the C locale on byte values: the letters `'A'..'Z'`
(65..90) go to `'a'..'z'`, any other value is returned as is (also a byte above 127,
whether the target reads it as a positive or as a negative `char`). -/
def tolower (c : Nat) : Nat :=
  if 65 ≤ c ∧ c ≤ 90 then c + 32 else c

/-- First phase of `strcat`: walk the destination from index `i` to its terminating NUL
and return the index of that NUL; `rest` is the memory of the array from `i` on. -/
def findNul : List Nat → Nat → Except Fault Nat
  | [], i => .error (.oobRead i)
  | c :: rest, i => if c = 0 then .ok i else findNul rest (i + 1)

/-- Second phase of `strcat`: copy the bytes of `src` to `buf[i], buf[i+1], ...` up to the
first NUL of `src` (the end of the list counts as the terminator), then store the
terminating NUL. -/
def copyFrom (buf : Buffer) (i : Nat) : List Nat → Except Fault Buffer
  | [] => wr buf i 0
  | c :: src =>
    if c = 0 then wr buf i 0
    else
      match wr buf i c with
      | .ok buf1 => copyFrom buf1 (i + 1) src
      | .error e => .error e

/-- The libc function `strcat (dest, src)` on the array `dest`. -/
def strcat (dest : Buffer) (src : List Nat) : Except Fault Buffer :=
  match findNul dest 0 with
  | .ok n => copyFrom dest n src
  | .error e => .error e

/-- The fields of `struct utsname` read by the code, as byte strings. -/
structure utsname where
  sysname : List Nat
  machine : List Nat
  deriving DecidableEq, Repr

/-- The value of a `const char *` returned by `Py_GetPlatform`: the address of the static
array, or the address of a string literal with the given bytes. -/
inductive Ptr where
  | buffer
  | literal (bytes : List Nat)
  deriving DecidableEq, Repr

/-- The bytes of an ASCII string. -/
def ascii (s : String) : List Nat := s.toList.map Char.toNat

/-- The string literal `"unknown"`. -/
def unknown : List Nat := ascii "unknown"

/-- The string literal `"-"`. -/
def hyphen : List Nat := ascii "-"

/-- The loop `for (i=0; buf[i]; i++) buf[i]=tolower(buf[i]);` entered at index `i`, with a
step budget; returns the array and the final value of `i`. -/
def lowerLoop : Nat → Buffer → Nat → Except Fault (Buffer × Nat)
  | 0, _, _ => .error .outOfFuel
  | fuel + 1, buf, i =>
    match rd buf i with
    | .error e => .error e
    | .ok c =>
      if c = 0 then .ok (buf, i)
      else
        match wr buf i (tolower c % 256) with
        | .ok buf1 => lowerLoop fuel buf1 (i + 1)
        | .error e => .error e

/-- What a caller reads through a pointer to the start of `mem`: the bytes before the
first NUL. -/
def readStr : List Nat → Nat → Except Fault (List Nat)
  | [], i => .error (.oobRead i)
  | c :: rest, i =>
    if c = 0 then .ok []
    else
      match readStr rest (i + 1) with
      | .ok s => .ok (c :: s)
      | .error e => .error e

/-- The C string a returned pointer designates, given the contents of the static array. -/
def cstring (buf : Buffer) : Ptr → Except Fault (List Nat)
  | .buffer => readStr buf 0
  | .literal bytes => .ok (bytes.takeWhile (fun c => c ≠ 0))

/-! ## `python-build/python-src/Python/getplatform.c` -/

namespace PythonBuild

/-- Initial value of `char PLATFORM[20]={0};`: the first element is given, the others are
zero as for every partly initialised array. -/
def PLATFORM_init : Buffer := 0 :: List.replicate 19 0

namespace Android

/-- The function `Py_GetPlatform` of the `#ifdef ANDROID` branch. -/
def Py_GetPlatform (PLATFORM : Buffer) (uname : Option utsname) :
    Except Fault (Ptr × Buffer) :=
  match rd PLATFORM 0 with
  | .error e => .error e
  | .ok c0 =>
    if c0 ≠ 0 then .ok (.buffer, PLATFORM)
    else
      match uname with
      | none => .ok (.literal unknown, PLATFORM)
      | some u =>
        match strcat PLATFORM u.sysname with
        | .error e => .error e
        | .ok b1 =>
          match strcat b1 hyphen with
          | .error e => .error e
          | .ok b2 =>
            match strcat b2 u.machine with
            | .error e => .error e
            | .ok b3 =>
              match lowerLoop (b3.length + 1) b3 0 with
              | .error e => .error e
              | .ok (b4, _) => .ok (.buffer, b4)

end Android

namespace Generic

/-- The macro `PLATFORM` after `#ifndef PLATFORM` / `#define PLATFORM "unknown"` / `#endif`;
the argument is the definition given on the compiler command line, if any. -/
def PLATFORM (defined : Option (List Nat)) : List Nat :=
  match defined with
  | some c => c
  | none => unknown

/-- The function `Py_GetPlatform` of the `#else` branch. -/
def Py_GetPlatform (defined : Option (List Nat)) : Ptr :=
  .literal (PLATFORM defined)

end Generic

/-- The builds of the file: with `ANDROID` defined (the name `PLATFORM` is then the array,
so no macro of that name can be defined), or without it and with an optional definition
of the macro `PLATFORM`. -/
inductive Build where
  | android
  | generic (PLATFORM : Option (List Nat))
  deriving DecidableEq, Repr

/-- The function `Py_GetPlatform` as selected by the preprocessor; a build without
`ANDROID` has no array and leaves the memory argument alone. -/
def Py_GetPlatform : Build → Buffer → Option utsname → Except Fault (Ptr × Buffer)
  | .android, mem, uname => Android.Py_GetPlatform mem uname
  | .generic defined, mem, _ => .ok (Generic.Py_GetPlatform defined, mem)

end PythonBuild

/-! ## `python3-alpha/python3-src/Python/getplatform.c` -/

namespace Python3Alpha

/-- Initial value of `char XPLATFORM[20];`: an object of static storage duration without
initialiser is zero-filled. -/
def XPLATFORM_init : Buffer := List.replicate 20 0

namespace Android

/-- The function `Py_GetPlatform` of the `#ifdef ANDROID` branch. -/
def Py_GetPlatform (XPLATFORM : Buffer) (uname : Option utsname) :
    Except Fault (Ptr × Buffer) :=
  match rd XPLATFORM 0 with
  | .error e => .error e
  | .ok c0 =>
    if c0 ≠ 0 then .ok (.buffer, XPLATFORM)
    else
      match uname with
      | none => .ok (.literal unknown, XPLATFORM)
      | some u =>
        match strcat XPLATFORM u.sysname with
        | .error e => .error e
        | .ok b1 =>
          match strcat b1 hyphen with
          | .error e => .error e
          | .ok b2 =>
            match strcat b2 u.machine with
            | .error e => .error e
            | .ok b3 =>
              match lowerLoop (b3.length + 1) b3 0 with
              | .error e => .error e
              | .ok (b4, _) => .ok (.buffer, b4)

end Android

namespace Generic

/-- The macro `PLATFORM` after `#ifndef PLATFORM` / `#define PLATFORM "unknown"` / `#endif`;
the argument is the definition given on the compiler command line, if any. -/
def PLATFORM (defined : Option (List Nat)) : List Nat :=
  match defined with
  | some c => c
  | none => unknown

/-- The function `Py_GetPlatform` of the `#else` branch. -/
def Py_GetPlatform (defined : Option (List Nat)) : Ptr :=
  .literal (PLATFORM defined)

end Generic

/-- The builds of the file: whether `ANDROID` is defined, and the definition of the macro
`PLATFORM` given on the compiler command line, if any.  The array is called `XPLATFORM`
here, so both can be defined together. -/
structure Build where
  ANDROID : Bool
  PLATFORM : Option (List Nat)
  deriving DecidableEq, Repr

/-- The function `Py_GetPlatform` as selected by the preprocessor: `#ifdef ANDROID` is
tested first, and the macro `PLATFORM` is read in the `#else` branch only. -/
def Py_GetPlatform (b : Build) (mem : Buffer) (uname : Option utsname) :
    Except Fault (Ptr × Buffer) :=
  if b.ANDROID then Android.Py_GetPlatform mem uname
  else .ok (Generic.Py_GetPlatform b.PLATFORM, mem)

end Python3Alpha

/-! ## Callers -/

/-- One call as its caller sees it: the string behind the returned pointer, read right
after the call, and the memory left by the call. -/
def observe (f : Buffer → Option utsname → Except Fault (Ptr × Buffer))
    (mem : Buffer) (uname : Option utsname) : Except Fault (List Nat × Buffer) :=
  match f mem uname with
  | .error e => .error e
  | .ok (p, mem1) =>
    match cstring mem1 p with
    | .ok s => .ok (s, mem1)
    | .error e => .error e

/-- Successive calls, one per `uname` outcome of the list, each observed; the run stops at
the first fault. -/
def trace (f : Buffer → Option utsname → Except Fault (Ptr × Buffer)) :
    Buffer → List (Option utsname) → List (Except Fault (List Nat × Buffer))
  | _, [] => []
  | mem, o :: os =>
    match observe f mem o with
    | .error e => [.error e]
    | .ok (s, mem1) => .ok (s, mem1) :: trace f mem1 os

/-- The memory after successive calls, one per `uname` outcome of the list. -/
def runCalls (f : Buffer → Option utsname → Except Fault (Ptr × Buffer)) :
    Buffer → List (Option utsname) → Except Fault Buffer
  | mem, [] => .ok mem
  | mem, o :: os =>
    match f mem o with
    | .error e => .error e
    | .ok (_, mem1) => runCalls f mem1 os

/-! ## Vocabulary of the statements -/

/-- A NUL-free byte string. -/
def IsCStr (s : List Nat) : Prop := ∀ c ∈ s, 0 < c ∧ c < 256

instance decIsCStr (s : List Nat) : Decidable (IsCStr s) := by
  unfold IsCStr; infer_instance

/-- A `uname` outcome whose fields are NUL-free byte strings. -/
def WellFormed : Option utsname → Prop
  | none => True
  | some u => IsCStr u.sysname ∧ IsCStr u.machine

instance decWellFormed (o : Option utsname) : Decidable (WellFormed o) := by
  cases o <;> unfold WellFormed <;> infer_instance

/-- A `uname` outcome within the capacity of the array: a failure, or two NUL-free byte
strings `s`, `m` with `len s + 1 + len m ≤ 19`. -/
def WithinCapacity : Option utsname → Prop
  | none => True
  | some u => IsCStr u.sysname ∧ IsCStr u.machine ∧ u.sysname.length + 1 + u.machine.length ≤ 19

instance decWithinCapacity (o : Option utsname) : Decidable (WithinCapacity o) := by
  cases o <;> unfold WithinCapacity <;> infer_instance

/-- The 20-byte array holding the string `c` followed by zero bytes. -/
def cached (c : List Nat) : Buffer := c ++ List.replicate (20 - c.length) 0

/-- The string `lower (s ++ "-" ++ m)`. -/
def platformString (s m : List Nat) : List Nat := (s ++ hyphen ++ m).map tolower

/-- The array holds a non-empty NUL-free byte string of at most 19 bytes followed by zero
bytes. -/
def Populated (mem : Buffer) : Prop :=
  ∃ c, IsCStr c ∧ c ≠ [] ∧ c.length ≤ 19 ∧ mem = cached c

/-- An uppercase ASCII letter. -/
def IsUpper (c : Nat) : Prop := 65 ≤ c ∧ c ≤ 90

instance decIsUpper (c : Nat) : Decidable (IsUpper c) := by
  unfold IsUpper; infer_instance

/-- The string `str`, read from the array `mem`, is NUL-terminated inside the array, has no
NUL byte and no uppercase ASCII letter, and is hyphen-joined for the pair `(s, m)`: its
length is `len s + 1 + len m` and it has `'-'` at index `len s`. -/
def HyphenJoined (s m str : List Nat) (mem : Buffer) : Prop :=
  mem = cached str ∧ str.length ≤ 19 ∧ (∀ x ∈ str, x ≠ 0 ∧ ¬ IsUpper x)
    ∧ str.length = s.length + 1 + m.length ∧ str[s.length]? = some 45

/-- The pair `(s, m)` is the one reported by the query that populated the array in the run
on the outcomes `os`: the first successful query of the run. -/
def PopulatedBy (os : List (Option utsname)) (s m : List Nat) : Prop :=
  ∃ pre post, os = pre ++ some ⟨s, m⟩ :: post ∧ ∀ o ∈ pre, o = none

/-! ## Lemmas on the memory operations -/

theorem tolower_mod (c : Nat) (h : c < 256) : tolower c % 256 = tolower c := by
  unfold tolower
  split <;> omega

theorem tolower_pos (c : Nat) (h : 0 < c) : 0 < tolower c := by
  unfold tolower
  split <;> omega

theorem tolower_lt (c : Nat) (h : c < 256) : tolower c < 256 := by
  unfold tolower
  split <;> omega

theorem tolower_not_upper (c : Nat) : ¬ IsUpper (tolower c) := by
  unfold IsUpper tolower
  split <;> omega

theorem tolower_eq_zero (c : Nat) (h : c < 256) : tolower c % 256 = 0 ↔ c = 0 := by
  unfold tolower
  split <;> omega

theorem IsCStr.nil : IsCStr [] := by
  intro c hc
  cases hc

theorem IsCStr.tail {c : Nat} {s : List Nat} (h : IsCStr (c :: s)) : IsCStr s :=
  fun x hx => h x (List.mem_cons_of_mem c hx)

theorem IsCStr.head {c : Nat} {s : List Nat} (h : IsCStr (c :: s)) : 0 < c ∧ c < 256 :=
  h c (List.mem_cons_self c s)

theorem IsCStr.append {s t : List Nat} (hs : IsCStr s) (ht : IsCStr t) : IsCStr (s ++ t) := by
  intro c hc
  rcases List.mem_append.mp hc with h | h
  · exact hs c h
  · exact ht c h

theorem IsCStr.lower {s : List Nat} (hs : IsCStr s) : IsCStr (s.map tolower) := by
  intro c hc
  obtain ⟨x, hx, rfl⟩ := List.mem_map.mp hc
  exact ⟨tolower_pos x (hs x hx).1, tolower_lt x (hs x hx).2⟩

theorem isCStr_hyphen : IsCStr hyphen := by decide

theorem hyphen_eq : hyphen = [45] := by decide

theorem wr_at_length (a t : List Nat) (x v : Nat) :
    wr (a ++ x :: t) a.length v = .ok (a ++ v :: t) := by
  unfold wr
  simp

theorem wr_past_end (a : List Nat) (v : Nat) :
    wr a a.length v = .error (.oobWrite a.length) := by
  unfold wr
  simp

theorem rd_at_length (a t : List Nat) (x : Nat) : rd (a ++ x :: t) a.length = .ok x := by
  induction a with
  | nil => simp [rd]
  | cons y a ih => simpa [rd] using ih

theorem findNul_spec (pre t : List Nat) (i : Nat) (hpre : IsCStr pre) :
    findNul (pre ++ 0 :: t) i = .ok (i + pre.length) := by
  induction pre generalizing i with
  | nil => simp [findNul]
  | cons c pre ih =>
    have hc := hpre.head
    have hne : c ≠ 0 := by omega
    rw [List.cons_append, findNul, if_neg hne, ih (i + 1) hpre.tail, List.length_cons]
    congr 1
    omega

theorem copyFrom_spec (src a t : List Nat) (hsrc : IsCStr src) (hlen : src.length < t.length) :
    copyFrom (a ++ t) a.length src = .ok (a ++ src ++ 0 :: t.drop (src.length + 1)) := by
  induction src generalizing a t with
  | nil =>
    cases t with
    | nil => simp at hlen
    | cons x t => simp [copyFrom, wr_at_length]
  | cons c src ih =>
    cases t with
    | nil => simp at hlen
    | cons x t =>
      have hc := hsrc.head
      have hne : c ≠ 0 := by omega
      have hlen1 : src.length < t.length := by simpa using hlen
      have h := ih (a ++ [c]) t hsrc.tail hlen1
      simp only [List.length_append, List.length_singleton, List.append_assoc,
        List.singleton_append] at h
      simp only [copyFrom, if_neg hne, wr_at_length, h]
      simp

theorem copyFrom_overflow (src a t : List Nat) (hsrc : IsCStr src)
    (hlen : t.length ≤ src.length) :
    copyFrom (a ++ t) a.length src = .error (.oobWrite (a.length + t.length)) := by
  induction src generalizing a t with
  | nil =>
    cases t with
    | nil => simp [copyFrom, wr_past_end]
    | cons x t => simp at hlen
  | cons c src ih =>
    have hc := hsrc.head
    have hne : c ≠ 0 := by omega
    cases t with
    | nil => simp [copyFrom, if_neg hne, wr_past_end]
    | cons x t =>
      have hlen1 : t.length ≤ src.length := by simpa using hlen
      have h := ih (a ++ [c]) t hsrc.tail hlen1
      simp only [List.length_append, List.length_singleton, List.append_assoc,
        List.singleton_append] at h
      simp only [copyFrom, if_neg hne, wr_at_length, h, List.length_cons]
      congr 2
      omega

theorem lowerLoop_budget (fuel : Nat) (buf : Buffer) (i : Nat) (hpos : 0 < fuel)
    (h : buf.length < fuel + i) : lowerLoop fuel buf i ≠ .error .outOfFuel := by
  induction fuel generalizing buf i with
  | zero => omega
  | succ f ih =>
    rw [lowerLoop]
    cases hrd : rd buf i with
    | error e =>
      unfold rd at hrd
      split at hrd
      · cases hrd
      · rw [← Except.error.inj hrd]
        simp
    | ok x =>
      have hi : i < buf.length := by
        unfold rd at hrd
        split at hrd
        · rename_i y hy
          exact (List.getElem?_eq_some_iff.mp hy).1
        · cases hrd
      by_cases hx : x = 0
      · simp [hx]
      · simp only [if_neg hx, wr, if_pos hi]
        exact ih (buf.set i (tolower x % 256)) (i + 1) (by omega)
          (by rw [List.length_set]; omega)

theorem cached_expand (c : List Nat) (h : c.length ≤ 19) :
    cached c = c ++ 0 :: List.replicate (19 - c.length) 0 := by
  unfold cached
  have h1 : 20 - c.length = (19 - c.length) + 1 := by omega
  rw [h1, List.replicate_succ]

theorem cached_length (c : List Nat) (h : c.length ≤ 20) : (cached c).length = 20 := by
  unfold cached
  simp
  omega

theorem strcat_cached (pre src : List Nat) (hpre : IsCStr pre) (hsrc : IsCStr src)
    (hlen : pre.length + src.length ≤ 19) :
    strcat (cached pre) src = .ok (cached (pre ++ src)) := by
  have hl : (pre ++ src).length ≤ 19 := by simpa using hlen
  rw [cached_expand pre (by omega), cached_expand (pre ++ src) hl]
  unfold strcat
  rw [findNul_spec pre _ 0 hpre]
  simp only [Nat.zero_add]
  rw [copyFrom_spec src pre _ hsrc (by simp; omega)]
  rw [← List.replicate_succ, List.drop_replicate]
  have h1 : 19 - pre.length + 1 - (src.length + 1) = 19 - (pre ++ src).length := by
    simp; omega
  rw [h1]

theorem strcat_cached_overflow (pre src : List Nat) (hpre : IsCStr pre) (hsrc : IsCStr src)
    (hfit : pre.length ≤ 19) (hlen : 20 ≤ pre.length + src.length) :
    strcat (cached pre) src = .error (.oobWrite 20) := by
  rw [cached_expand pre hfit]
  unfold strcat
  rw [findNul_spec pre _ 0 hpre]
  simp only [Nat.zero_add]
  rw [copyFrom_overflow src pre _ hsrc (by simp; omega)]
  congr 2
  simp
  omega

theorem strcat_overlong (src : List Nat) (hsrc : IsCStr src) (hlen : 20 ≤ src.length) :
    strcat (cached []) src = .error (.oobWrite 20) :=
  strcat_cached_overflow [] src IsCStr.nil hsrc (by simp) (by simpa using hlen)

theorem lowerLoop_spec (c a t : List Nat) (fuel : Nat) (hc : IsCStr c)
    (hfuel : c.length < fuel) :
    lowerLoop fuel (a ++ c ++ 0 :: t) a.length
      = .ok (a ++ c.map tolower ++ 0 :: t, a.length + c.length) := by
  induction c generalizing a fuel with
  | nil =>
    cases fuel with
    | zero => simp at hfuel
    | succ f => simp [lowerLoop, rd_at_length]
  | cons x c ih =>
    cases fuel with
    | zero => simp at hfuel
    | succ f =>
      have hx := hc.head
      have hne : x ≠ 0 := by omega
      have hf : c.length < f := by simpa using hfuel
      have h := ih (a ++ [tolower x]) f hc.tail hf
      simp only [List.length_append, List.length_singleton, List.append_assoc,
        List.singleton_append] at h
      simp only [lowerLoop, List.append_assoc, List.cons_append, rd_at_length, if_neg hne,
        wr_at_length, tolower_mod x hx.2, h, List.map_cons, List.length_cons]
      have h2 : a.length + 1 + c.length = a.length + (c.length + 1) := by omega
      rw [← h2]
      simpa using h

theorem readStr_spec (c t : List Nat) (i : Nat) (hc : IsCStr c) :
    readStr (c ++ 0 :: t) i = .ok c := by
  induction c generalizing i with
  | nil => simp [readStr]
  | cons x c ih =>
    have hx := hc.head
    have hne : x ≠ 0 := by omega
    rw [List.cons_append, readStr, if_neg hne, ih (i + 1) hc.tail]

theorem cstring_cached (c : List Nat) (hc : IsCStr c) (hlen : c.length ≤ 19) :
    cstring (cached c) .buffer = .ok c := by
  rw [cached_expand c hlen]
  exact readStr_spec c _ 0 hc

theorem takeWhile_isCStr (c : List Nat) (hc : IsCStr c) :
    c.takeWhile (fun x => decide (x ≠ 0)) = c := by
  rw [List.takeWhile_eq_self_iff]
  intro x hx
  have := hc x hx
  simp
  omega

theorem cstring_literal (mem : Buffer) (c : List Nat) (hc : IsCStr c) :
    cstring mem (.literal c) = .ok c := by
  simp only [cstring, takeWhile_isCStr c hc]

theorem isCStr_unknown : IsCStr unknown := by decide

theorem isCStr_platformString (s m : List Nat) (hs : IsCStr s) (hm : IsCStr m) :
    IsCStr (platformString s m) :=
  ((hs.append isCStr_hyphen).append hm).lower

theorem platformString_length (s m : List Nat) :
    (platformString s m).length = s.length + 1 + m.length := by
  simp [platformString, hyphen_eq]
  omega

/-! ## Lemmas on one call -/

theorem variants_agree :
    Python3Alpha.Android.Py_GetPlatform = PythonBuild.Android.Py_GetPlatform := by
  funext mem uname
  rfl

theorem init_eq_cached : PythonBuild.PLATFORM_init = cached [] := by decide

theorem xinit_eq_cached : Python3Alpha.XPLATFORM_init = cached [] := by decide

theorem rd_cached_nil : rd (cached []) 0 = .ok 0 := by decide

theorem rd_cached_cons (x : Nat) (c : List Nat) : rd (cached (x :: c)) 0 = .ok x := by
  simp [cached, rd]

theorem call_empty_fail :
    PythonBuild.Android.Py_GetPlatform (cached []) none = .ok (.literal unknown, cached []) := by
  decide

theorem call_populated (c : List Nat) (hc : IsCStr c) (hne : c ≠ []) (o : Option utsname) :
    PythonBuild.Android.Py_GetPlatform (cached c) o = .ok (.buffer, cached c) := by
  cases c with
  | nil => exact absurd rfl hne
  | cons x c =>
    have hx := hc.head
    have hx0 : x ≠ 0 := by omega
    simp only [PythonBuild.Android.Py_GetPlatform, rd_cached_cons]
    simp [hx0]

theorem lowerLoop_cached (c : List Nat) (hc : IsCStr c) (hlen : c.length ≤ 19) :
    lowerLoop ((cached c).length + 1) (cached c) 0 = .ok (cached (c.map tolower), c.length) := by
  rw [cached_length c (by omega), cached_expand c hlen,
    cached_expand (c.map tolower) (by simpa using hlen)]
  have h := lowerLoop_spec c [] (List.replicate (19 - c.length) 0) 21 hc (by omega)
  simpa using h

theorem call_empty_success (s m : List Nat) (hs : IsCStr s) (hm : IsCStr m)
    (hlen : s.length + 1 + m.length ≤ 19) :
    PythonBuild.Android.Py_GetPlatform (cached []) (some ⟨s, m⟩)
      = .ok (.buffer, cached (platformString s m)) := by
  have h1 : strcat (cached []) s = .ok (cached s) := by
    simpa using strcat_cached [] s IsCStr.nil hs (by simp; omega)
  have h2 : strcat (cached s) hyphen = .ok (cached (s ++ hyphen)) :=
    strcat_cached s hyphen hs isCStr_hyphen (by simp [hyphen_eq]; omega)
  have h3 : strcat (cached (s ++ hyphen)) m = .ok (cached (s ++ hyphen ++ m)) :=
    strcat_cached (s ++ hyphen) m (hs.append isCStr_hyphen) hm (by simp [hyphen_eq]; omega)
  have h4 := lowerLoop_cached (s ++ hyphen ++ m) ((hs.append isCStr_hyphen).append hm)
    (by simp [hyphen_eq]; omega)
  simp only [PythonBuild.Android.Py_GetPlatform, rd_cached_nil, h1, h2, h3, h4]
  simp [platformString]

theorem call_empty_overflow (s m : List Nat) (hs : IsCStr s) (hm : IsCStr m)
    (hlen : 20 ≤ s.length + 1 + m.length) :
    PythonBuild.Android.Py_GetPlatform (cached []) (some ⟨s, m⟩) = .error (.oobWrite 20) := by
  by_cases h20 : 20 ≤ s.length
  · have h1 := strcat_overlong s hs h20
    simp only [PythonBuild.Android.Py_GetPlatform, rd_cached_nil, h1]
    simp
  · have h1 : strcat (cached []) s = .ok (cached s) := by
      simpa using strcat_cached [] s IsCStr.nil hs (by simp; omega)
    by_cases h19 : s.length = 19
    · have h2 := strcat_cached_overflow s hyphen hs isCStr_hyphen (by omega)
        (by simp [hyphen_eq]; omega)
      simp only [PythonBuild.Android.Py_GetPlatform, rd_cached_nil, h1, h2]
      simp
    · have h2 : strcat (cached s) hyphen = .ok (cached (s ++ hyphen)) :=
        strcat_cached s hyphen hs isCStr_hyphen (by simp [hyphen_eq]; omega)
      have h3 := strcat_cached_overflow (s ++ hyphen) m (hs.append isCStr_hyphen) hm
        (by simp [hyphen_eq]; omega) (by simp [hyphen_eq]; omega)
      simp only [PythonBuild.Android.Py_GetPlatform, rd_cached_nil, h1, h2, h3]
      simp

theorem wr_budget (buf : Buffer) (i v : Nat) : wr buf i v ≠ .error .outOfFuel := by
  unfold wr
  split <;> simp

theorem findNul_budget (mem : List Nat) (i : Nat) : findNul mem i ≠ .error .outOfFuel := by
  induction mem generalizing i with
  | nil => simp [findNul]
  | cons x mem ih =>
    rw [findNul]
    split
    · simp
    · exact ih (i + 1)

theorem copyFrom_budget (src : List Nat) (buf : Buffer) (i : Nat) :
    copyFrom buf i src ≠ .error .outOfFuel := by
  induction src generalizing buf i with
  | nil => exact wr_budget buf i 0
  | cons x src ih =>
    rw [copyFrom]
    split
    · exact wr_budget buf i 0
    · cases hw : wr buf i x with
      | ok buf1 => exact ih buf1 (i + 1)
      | error e =>
        intro h
        exact wr_budget buf i x (by rw [hw, Except.error.inj h])

theorem strcat_budget (dest : Buffer) (src : List Nat) :
    strcat dest src ≠ .error .outOfFuel := by
  unfold strcat
  cases hf : findNul dest 0 with
  | ok n => exact copyFrom_budget src dest n
  | error e =>
    intro h
    exact findNul_budget dest 0 (by rw [hf, Except.error.inj h])

theorem rd_budget (buf : Buffer) (i : Nat) : rd buf i ≠ .error .outOfFuel := by
  unfold rd
  split <;> simp

theorem call_budget (mem : Buffer) (o : Option utsname) :
    PythonBuild.Android.Py_GetPlatform mem o ≠ .error .outOfFuel := by
  unfold PythonBuild.Android.Py_GetPlatform
  cases hrd : rd mem 0 with
  | error e =>
    intro h
    exact rd_budget mem 0 (by rw [hrd, Except.error.inj h])
  | ok c0 =>
    by_cases hc : c0 = 0
    · cases o with
      | none => simp [hc]
      | some u =>
        simp only [hc, ne_eq, not_true_eq_false, if_false]
        cases h1 : strcat mem u.sysname with
        | error e =>
          intro h
          exact strcat_budget mem u.sysname (by rw [h1, Except.error.inj h])
        | ok b1 =>
          dsimp only
          cases h2 : strcat b1 hyphen with
          | error e =>
            intro h
            exact strcat_budget b1 hyphen (by rw [h2, Except.error.inj h])
          | ok b2 =>
            dsimp only
            cases h3 : strcat b2 u.machine with
            | error e =>
              intro h
              exact strcat_budget b2 u.machine (by rw [h3, Except.error.inj h])
            | ok b3 =>
              dsimp only
              cases h4 : lowerLoop (b3.length + 1) b3 0 with
              | error e =>
                intro h
                exact lowerLoop_budget (b3.length + 1) b3 0 (by omega) (by omega)
                  (by rw [h4, Except.error.inj h])
              | ok r => simp
    · simp [hc]

theorem platformString_ne_nil (s m : List Nat) : platformString s m ≠ [] := by
  simp [platformString, hyphen_eq]

theorem observe_empty_fail :
    observe PythonBuild.Android.Py_GetPlatform (cached []) none = .ok (unknown, cached []) := by
  decide

theorem observe_empty_success (s m : List Nat) (hs : IsCStr s) (hm : IsCStr m)
    (hlen : s.length + 1 + m.length ≤ 19) :
    observe PythonBuild.Android.Py_GetPlatform (cached []) (some ⟨s, m⟩)
      = .ok (platformString s m, cached (platformString s m)) := by
  have hc := cstring_cached (platformString s m) (isCStr_platformString s m hs hm)
    (by rw [platformString_length]; exact hlen)
  simp only [observe, call_empty_success s m hs hm hlen, hc]

theorem observe_populated (c : List Nat) (hc : IsCStr c) (hne : c ≠ []) (hlen : c.length ≤ 19)
    (o : Option utsname) :
    observe PythonBuild.Android.Py_GetPlatform (cached c) o = .ok (c, cached c) := by
  simp only [observe, call_populated c hc hne o, cstring_cached c hc hlen]

theorem trace_populated (c : List Nat) (hc : IsCStr c) (hne : c ≠ []) (hlen : c.length ≤ 19)
    (os : List (Option utsname)) :
    trace PythonBuild.Android.Py_GetPlatform (cached c) os
      = os.map (fun _ => .ok (c, cached c)) := by
  induction os with
  | nil => rfl
  | cons o os ih => simp only [trace, observe_populated c hc hne hlen o, ih, List.map_cons]

theorem trace_failures (n : Nat) (os : List (Option utsname)) :
    trace PythonBuild.Android.Py_GetPlatform (cached []) (List.replicate n none ++ os)
      = List.replicate n (.ok (unknown, cached []))
        ++ trace PythonBuild.Android.Py_GetPlatform (cached []) os := by
  induction n with
  | zero => simp
  | succ n ih =>
    rw [List.replicate_succ, List.cons_append, trace, observe_empty_fail]
    simp only [ih, List.replicate_succ, List.cons_append]

theorem hyphen_mem_platformString (s m : List Nat) : 45 ∈ platformString s m := by
  simp only [platformString, List.mem_map]
  exact ⟨45, by simp [hyphen_eq], by decide⟩

theorem platformString_ne_unknown (s m : List Nat) : platformString s m ≠ unknown := by
  intro h
  have h1 := hyphen_mem_platformString s m
  rw [h] at h1
  exact absurd h1 (by decide)

theorem platformString_eq (s m : List Nat) :
    (s ++ ascii "-" ++ m).map tolower = platformString s m := rfl

theorem call_first_byte_zero (mem : Buffer) (h : mem[0]? = some 0) :
    PythonBuild.Android.Py_GetPlatform mem none = .ok (.literal unknown, mem) := by
  simp [PythonBuild.Android.Py_GetPlatform, rd, h]

theorem call_empty_wellformed (o : Option utsname) (ho : WellFormed o) (p : Ptr)
    (mem1 : Buffer)
    (h : PythonBuild.Android.Py_GetPlatform (cached []) o = .ok (p, mem1)) :
    mem1 = cached [] ∨ Populated mem1 := by
  cases o with
  | none =>
    rw [call_empty_fail] at h
    left
    exact (Prod.mk.inj (Except.ok.inj h)).2.symm
  | some u =>
    obtain ⟨s, m⟩ := u
    obtain ⟨hs, hm⟩ := ho
    by_cases hlen : s.length + 1 + m.length ≤ 19
    · rw [call_empty_success s m hs hm hlen] at h
      right
      exact ⟨platformString s m, isCStr_platformString s m hs hm, platformString_ne_nil s m,
        by rw [platformString_length]; exact hlen, (Prod.mk.inj (Except.ok.inj h)).2.symm⟩
    · rw [call_empty_overflow s m hs hm (by omega)] at h
      cases h

theorem runCalls_invariant (os : List (Option utsname)) (mem0 mem : Buffer)
    (h0 : mem0 = cached [] ∨ Populated mem0) (hwf : ∀ o ∈ os, WellFormed o)
    (h : runCalls PythonBuild.Android.Py_GetPlatform mem0 os = .ok mem) :
    mem = cached [] ∨ Populated mem := by
  induction os generalizing mem0 with
  | nil =>
    simp only [runCalls] at h
    rw [← Except.ok.inj h]
    exact h0
  | cons o os ih =>
    have hwf1 : ∀ x ∈ os, WellFormed x := fun x hx => hwf x (List.mem_cons_of_mem o hx)
    rcases h0 with h0 | ⟨c, hc, hne, hl, h0⟩
    · subst h0
      rw [runCalls] at h
      cases hcall : PythonBuild.Android.Py_GetPlatform (cached []) o with
      | error e => rw [hcall] at h; cases h
      | ok r =>
        obtain ⟨p, mem1⟩ := r
        rw [hcall] at h
        exact ih mem1 (call_empty_wellformed o (hwf o (List.mem_cons_self o os)) p mem1 hcall)
          hwf1 h
    · subst h0
      rw [runCalls, call_populated c hc hne o] at h
      exact ih (cached c) (Or.inr ⟨c, hc, hne, hl, rfl⟩) hwf1 h

theorem two_calls_agree (mem : Buffer) (hmem : mem = cached [] ∨ Populated mem)
    (o : Option utsname) (ho : WithinCapacity o) :
    ∃ str mem1, trace PythonBuild.Android.Py_GetPlatform mem [o, o]
      = [.ok (str, mem1), .ok (str, mem1)] := by
  rcases hmem with h0 | ⟨c, hc, hne, hl, h0⟩
  · subst h0
    cases o with
    | none =>
      exact ⟨unknown, cached [], by simp only [trace, observe_empty_fail]⟩
    | some u =>
      obtain ⟨s, m⟩ := u
      obtain ⟨hs, hm, hlen⟩ := ho
      refine ⟨platformString s m, cached (platformString s m), ?_⟩
      have hp := observe_populated (platformString s m) (isCStr_platformString s m hs hm)
        (platformString_ne_nil s m) (by rw [platformString_length]; exact hlen)
      simp only [trace, observe_empty_success s m hs hm hlen, hp]
  · subst h0
    exact ⟨c, cached c, by simp only [trace, observe_populated c hc hne hl]⟩

theorem cached_getElem_zero (str : List Nat) (hc : IsCStr str) (hlen : str.length ≤ 20) (i : Nat) :
    (cached str)[i]? = some 0 ↔ str.length ≤ i ∧ i < 20 := by
  unfold cached
  by_cases hi : i < str.length
  · rw [List.getElem?_append_left hi, List.getElem?_eq_getElem hi]
    have h := hc (str[i]) (List.getElem_mem hi)
    constructor
    · intro h1
      have h2 := Option.some.inj h1
      omega
    · intro h1
      omega
  · rw [List.getElem?_append_right (by omega), List.getElem?_replicate]
    constructor
    · intro h1
      split at h1
      · omega
      · cases h1
    · intro h1
      rw [if_pos (by omega)]

theorem trace_entry_cases (os : List (Option utsname)) (hcap : ∀ o ∈ os, WithinCapacity o)
    (r : Except Fault (List Nat × Buffer))
    (hr : r ∈ trace PythonBuild.Android.Py_GetPlatform (cached []) os) :
    r = .ok (unknown, cached [])
    ∨ ∃ pre s m post, os = pre ++ some ⟨s, m⟩ :: post ∧ (∀ o ∈ pre, o = none)
        ∧ IsCStr s ∧ IsCStr m ∧ s.length + 1 + m.length ≤ 19
        ∧ r = .ok (platformString s m, cached (platformString s m)) := by
  induction os with
  | nil => simp [trace] at hr
  | cons o os ih =>
    have hcap1 : ∀ x ∈ os, WithinCapacity x := fun x hx => hcap x (List.mem_cons_of_mem o hx)
    have ho := hcap o (List.mem_cons_self o os)
    cases o with
    | none =>
      rw [trace, observe_empty_fail] at hr
      rcases List.mem_cons.mp hr with h | h
      · exact Or.inl h
      · rcases ih hcap1 h with h1 | ⟨pre, s, m, post, hos, hpre, hs, hm, hlen, h1⟩
        · exact Or.inl h1
        · refine Or.inr ⟨none :: pre, s, m, post, by rw [hos]; rfl, ?_, hs, hm, hlen, h1⟩
          intro x hx
          rcases List.mem_cons.mp hx with hx | hx
          · exact hx
          · exact hpre x hx
    | some u =>
      obtain ⟨s, m⟩ := u
      obtain ⟨hs, hm, hlen⟩ := ho
      rw [trace, observe_empty_success s m hs hm hlen] at hr
      simp only [trace_populated _ (isCStr_platformString s m hs hm) (platformString_ne_nil s m)
        (by rw [platformString_length]; exact hlen)] at hr
      refine Or.inr ⟨[], s, m, os, rfl, by simp, hs, hm, hlen, ?_⟩
      rcases List.mem_cons.mp hr with h | h
      · exact h
      · obtain ⟨_, _, h1⟩ := List.mem_map.mp h
        exact h1.symm

theorem platformString_no_upper (s m : List Nat) : ∀ x ∈ platformString s m, ¬ IsUpper x := by
  intro x hx
  obtain ⟨y, _, rfl⟩ := List.mem_map.mp hx
  exact tolower_not_upper y

theorem platformString_hyphen_at (s m : List Nat) :
    (platformString s m)[s.length]? = some 45 := by
  unfold platformString
  rw [List.map_append, List.map_append, List.append_assoc,
    List.getElem?_append_right (by simp)]
  simp [hyphen_eq, tolower]

theorem trace_generic2 (d : Option (List Nat)) (mem : Buffer) (os : List (Option utsname)) :
    trace (PythonBuild.Py_GetPlatform (.generic d)) mem os
      = os.map (fun _ => .ok ((PythonBuild.Generic.PLATFORM d).takeWhile (fun x => x ≠ 0), mem)) := by
  induction os with
  | nil => rfl
  | cons o os ih =>
    have hobs : observe (PythonBuild.Py_GetPlatform (.generic d)) mem o
        = .ok ((PythonBuild.Generic.PLATFORM d).takeWhile (fun x => x ≠ 0), mem) := rfl
    rw [trace, hobs]
    simp only [ih, List.map_cons]

theorem trace_generic3 (d : Option (List Nat)) (mem : Buffer) (os : List (Option utsname)) :
    trace (Python3Alpha.Py_GetPlatform ⟨false, d⟩) mem os
      = os.map (fun _ => .ok ((Python3Alpha.Generic.PLATFORM d).takeWhile (fun x => x ≠ 0), mem)) := by
  induction os with
  | nil => rfl
  | cons o os ih =>
    have hobs : observe (Python3Alpha.Py_GetPlatform ⟨false, d⟩) mem o
        = .ok ((Python3Alpha.Generic.PLATFORM d).takeWhile (fun x => x ≠ 0), mem) := rfl
    rw [trace, hobs]
    simp only [ih, List.map_cons]

theorem android_build3 (d : Option (List Nat)) :
    Python3Alpha.Py_GetPlatform ⟨true, d⟩ = PythonBuild.Android.Py_GetPlatform := by
  funext mem uname
  rfl

theorem android_build2 :
    PythonBuild.Py_GetPlatform .android = PythonBuild.Android.Py_GetPlatform := by
  funext mem uname
  rfl

theorem hyphenJoined_platformString (s m : List Nat) (hs : IsCStr s) (hm : IsCStr m)
    (hlen : s.length + 1 + m.length ≤ 19) :
    HyphenJoined s m (platformString s m) (cached (platformString s m)) := by
  refine ⟨rfl, by rw [platformString_length]; exact hlen, ?_, platformString_length s m,
    platformString_hyphen_at s m⟩
  intro x hx
  have h := isCStr_platformString s m hs hm x hx
  exact ⟨by omega, platformString_no_upper s m x hx⟩

theorem android_entry_contract (os : List (Option utsname))
    (hcap : ∀ o ∈ os, WithinCapacity o) (r : Except Fault (List Nat × Buffer))
    (hr : r ∈ trace PythonBuild.Android.Py_GetPlatform (cached []) os) :
    ∃ str mem, r = .ok (str, mem)
      ∧ (str = unknown ∨ ∃ s m, PopulatedBy os s m ∧ HyphenJoined s m str mem) := by
  rcases trace_entry_cases os hcap r hr with h | ⟨pre, s, m, post, hos, hpre, hs, hm, hlen, h⟩
  · exact ⟨unknown, cached [], h, Or.inl rfl⟩
  · exact ⟨platformString s m, cached (platformString s m), h,
      Or.inr ⟨s, m, ⟨pre, post, hos, hpre⟩, hyphenJoined_platformString s m hs hm hlen⟩⟩

/-! ## The claims -/

/-- C1: in the ANDROID build, for NUL-free byte strings `s` and `m` with
`len s + 1 + len m ≤ 19`, a call on the all-zero array whose `uname` succeeds with
`(s, m)` returns the string `lower (s ++ "-" ++ m)`, where `lower` is `tolower` on every
byte; the array then holds that string.  Both variants. -/
theorem c1_first_call_returns_lowered_pair (s m : List Nat) (hs : IsCStr s) (hm : IsCStr m)
    (hlen : s.length + 1 + m.length ≤ 19) :
    observe PythonBuild.Android.Py_GetPlatform PythonBuild.PLATFORM_init (some ⟨s, m⟩)
        = .ok ((s ++ ascii "-" ++ m).map tolower, cached ((s ++ ascii "-" ++ m).map tolower))
    ∧ observe Python3Alpha.Android.Py_GetPlatform Python3Alpha.XPLATFORM_init (some ⟨s, m⟩)
        = .ok ((s ++ ascii "-" ++ m).map tolower, cached ((s ++ ascii "-" ++ m).map tolower)) := by
  rw [variants_agree, init_eq_cached, xinit_eq_cached, platformString_eq]
  exact ⟨observe_empty_success s m hs hm hlen, observe_empty_success s m hs hm hlen⟩

/-- C1, at `("Linux", "armv7l")`: the call returns `"linux-armv7l"`. -/
theorem c1_linux_armv7l :
    (IsCStr (ascii "Linux") ∧ IsCStr (ascii "armv7l")
      ∧ (ascii "Linux").length + 1 + (ascii "armv7l").length ≤ 19)
    ∧ observe PythonBuild.Android.Py_GetPlatform PythonBuild.PLATFORM_init
        (some ⟨ascii "Linux", ascii "armv7l"⟩)
        = .ok (ascii "linux-armv7l", cached (ascii "linux-armv7l"))
    ∧ observe Python3Alpha.Android.Py_GetPlatform Python3Alpha.XPLATFORM_init
        (some ⟨ascii "Linux", ascii "armv7l"⟩)
        = .ok (ascii "linux-armv7l", cached (ascii "linux-armv7l")) :=
  ⟨by decide, c1_first_call_returns_lowered_pair (ascii "Linux") (ascii "armv7l")
    (by decide) (by decide) (by decide)⟩

/-- C2: in the ANDROID build, when the array is empty (its first byte is NUL) and `uname`
fails, the call returns a pointer to the literal `"unknown"`, the caller reads exactly
`"unknown"`, no fault is raised and the array is left as it was.  Both variants. -/
theorem c2_failed_query_returns_unknown (mem : Buffer) (hempty : mem[0]? = some 0) :
    (PythonBuild.Android.Py_GetPlatform mem none = .ok (.literal (ascii "unknown"), mem)
      ∧ observe PythonBuild.Android.Py_GetPlatform mem none = .ok (ascii "unknown", mem))
    ∧ (Python3Alpha.Android.Py_GetPlatform mem none = .ok (.literal (ascii "unknown"), mem)
      ∧ observe Python3Alpha.Android.Py_GetPlatform mem none = .ok (ascii "unknown", mem)) := by
  rw [variants_agree]
  have h := call_first_byte_zero mem hempty
  have h1 : observe PythonBuild.Android.Py_GetPlatform mem none = .ok (unknown, mem) := by
    simp only [observe, h, cstring_literal mem unknown isCStr_unknown]
  exact ⟨⟨h, h1⟩, ⟨h, h1⟩⟩

/-- C2, on the initial all-zero array. -/
theorem c2_failed_query_on_initial_array :
    PythonBuild.PLATFORM_init[0]? = some 0
    ∧ (PythonBuild.Android.Py_GetPlatform PythonBuild.PLATFORM_init none
          = .ok (.literal (ascii "unknown"), PythonBuild.PLATFORM_init)
      ∧ observe PythonBuild.Android.Py_GetPlatform PythonBuild.PLATFORM_init none
          = .ok (ascii "unknown", PythonBuild.PLATFORM_init))
    ∧ (Python3Alpha.Android.Py_GetPlatform PythonBuild.PLATFORM_init none
          = .ok (.literal (ascii "unknown"), PythonBuild.PLATFORM_init)
      ∧ observe Python3Alpha.Android.Py_GetPlatform PythonBuild.PLATFORM_init none
          = .ok (ascii "unknown", PythonBuild.PLATFORM_init)) :=
  ⟨by decide, c2_failed_query_returns_unknown PythonBuild.PLATFORM_init (by decide)⟩

/-- C3: in the ANDROID build, after a call on the all-zero array whose `uname` succeeded
with `(s, m)`, `len s + 1 + len m ≤ 19` (`s`, `m` possibly empty), every later call,
whatever its `uname` outcome (any pair of byte lists, or a failure), returns the same
string `lower (s ++ "-" ++ m)` through a pointer to the array and leaves the array
byte for byte as the first call left it.  Both variants. -/
theorem c3_cache_read_only_once_populated (s m : List Nat) (hs : IsCStr s) (hm : IsCStr m)
    (hlen : s.length + 1 + m.length ≤ 19) (later : List (Option utsname)) :
    (trace PythonBuild.Android.Py_GetPlatform PythonBuild.PLATFORM_init (some ⟨s, m⟩ :: later)
        = (some ⟨s, m⟩ :: later).map
            (fun _ => .ok (platformString s m, cached (platformString s m)))
      ∧ ∀ o, PythonBuild.Android.Py_GetPlatform (cached (platformString s m)) o
          = .ok (.buffer, cached (platformString s m)))
    ∧ (trace Python3Alpha.Android.Py_GetPlatform Python3Alpha.XPLATFORM_init
          (some ⟨s, m⟩ :: later)
        = (some ⟨s, m⟩ :: later).map
            (fun _ => .ok (platformString s m, cached (platformString s m)))
      ∧ ∀ o, Python3Alpha.Android.Py_GetPlatform (cached (platformString s m)) o
          = .ok (.buffer, cached (platformString s m))) := by
  rw [variants_agree, init_eq_cached, xinit_eq_cached]
  have hc := isCStr_platformString s m hs hm
  have hl : (platformString s m).length ≤ 19 := by rw [platformString_length]; exact hlen
  have hne := platformString_ne_nil s m
  have h1 : trace PythonBuild.Android.Py_GetPlatform (cached []) (some ⟨s, m⟩ :: later)
      = (some ⟨s, m⟩ :: later).map
          (fun _ => .ok (platformString s m, cached (platformString s m))) := by
    rw [trace, observe_empty_success s m hs hm hlen]
    simp only [trace_populated _ hc hne hl, List.map_cons]
  exact ⟨⟨h1, call_populated _ hc hne⟩, ⟨h1, call_populated _ hc hne⟩⟩

/-- C3, with empty `s` and `m` (the array then holds `"-"`), followed by a failing query and
a query reporting another pair. -/
theorem c3_empty_names :
    (IsCStr [] ∧ ([] : List Nat).length + 1 + ([] : List Nat).length ≤ 19)
    ∧ (trace PythonBuild.Android.Py_GetPlatform PythonBuild.PLATFORM_init
          [some (utsname.mk [] []), none, some (utsname.mk (ascii "Linux") (ascii "armv7l"))]
        = [some (utsname.mk [] []), none, some (utsname.mk (ascii "Linux") (ascii "armv7l"))].map
            (fun _ => .ok (platformString [] [], cached (platformString [] [])))
      ∧ ∀ o, PythonBuild.Android.Py_GetPlatform (cached (platformString [] [])) o
          = .ok (.buffer, cached (platformString [] [])))
    ∧ (trace Python3Alpha.Android.Py_GetPlatform Python3Alpha.XPLATFORM_init
          [some (utsname.mk [] []), none, some (utsname.mk (ascii "Linux") (ascii "armv7l"))]
        = [some (utsname.mk [] []), none, some (utsname.mk (ascii "Linux") (ascii "armv7l"))].map
            (fun _ => .ok (platformString [] [], cached (platformString [] [])))
      ∧ ∀ o, Python3Alpha.Android.Py_GetPlatform (cached (platformString [] [])) o
          = .ok (.buffer, cached (platformString [] []))) :=
  ⟨by decide, c3_cache_read_only_once_populated [] [] (by decide) (by decide) (by decide)
    [none, some ⟨ascii "Linux", ascii "armv7l"⟩]⟩

/-- C4: in the ANDROID build, from every array state reached from the initial all-zero
array by calls that did not fault (on any well-formed `uname` outcomes), two consecutive
calls under the same `uname` outcome within capacity (failure, or success with a fixed
`(s, m)`, `len s + 1 + len m ≤ 19`) return strings of identical content, and the second
call leaves the array as the first left it.  Both variants. -/
theorem c4_two_consecutive_calls_agree (history : List (Option utsname))
    (hwf : ∀ o ∈ history, WellFormed o) (mem : Buffer) (o : Option utsname)
    (ho : WithinCapacity o) :
    (runCalls PythonBuild.Android.Py_GetPlatform PythonBuild.PLATFORM_init history = .ok mem →
      ∃ str mem1, trace PythonBuild.Android.Py_GetPlatform mem [o, o]
        = [.ok (str, mem1), .ok (str, mem1)])
    ∧ (runCalls Python3Alpha.Android.Py_GetPlatform Python3Alpha.XPLATFORM_init history
          = .ok mem →
      ∃ str mem1, trace Python3Alpha.Android.Py_GetPlatform mem [o, o]
        = [.ok (str, mem1), .ok (str, mem1)]) := by
  rw [variants_agree, init_eq_cached, xinit_eq_cached]
  have h : runCalls PythonBuild.Android.Py_GetPlatform (cached []) history = .ok mem →
      ∃ str mem1, trace PythonBuild.Android.Py_GetPlatform mem [o, o]
        = [.ok (str, mem1), .ok (str, mem1)] :=
    fun hr => two_calls_agree mem (runCalls_invariant history (cached []) mem (Or.inl rfl) hwf hr)
      o ho
  exact ⟨h, h⟩

/-- C4, after a failed and a successful query, under a query that now reports another
pair: both calls return `"linux-armv7l"`. -/
theorem c4_after_linux_armv7l :
    ((∀ o ∈ [none, some (utsname.mk (ascii "Linux") (ascii "armv7l"))], WellFormed o)
      ∧ WithinCapacity (some (utsname.mk (ascii "Darwin") (ascii "arm64"))))
    ∧ (∃ str mem1, trace PythonBuild.Android.Py_GetPlatform (cached (ascii "linux-armv7l"))
          [some (utsname.mk (ascii "Darwin") (ascii "arm64")),
            some (utsname.mk (ascii "Darwin") (ascii "arm64"))]
        = [.ok (str, mem1), .ok (str, mem1)])
    ∧ (∃ str mem1, trace Python3Alpha.Android.Py_GetPlatform (cached (ascii "linux-armv7l"))
          [some (utsname.mk (ascii "Darwin") (ascii "arm64")),
            some (utsname.mk (ascii "Darwin") (ascii "arm64"))]
        = [.ok (str, mem1), .ok (str, mem1)]) :=
  ⟨by decide,
    (c4_two_consecutive_calls_agree [none, some (utsname.mk (ascii "Linux") (ascii "armv7l"))]
      (by decide) (cached (ascii "linux-armv7l"))
      (some (utsname.mk (ascii "Darwin") (ascii "arm64"))) (by decide)).1 (by decide),
    (c4_two_consecutive_calls_agree [none, some (utsname.mk (ascii "Linux") (ascii "armv7l"))]
      (by decide) (cached (ascii "linux-armv7l"))
      (some (utsname.mk (ascii "Darwin") (ascii "arm64"))) (by decide)).2 (by decide)⟩

/-- C5, refuted as stated: in the python3-alpha variant built with `ANDROID` defined and
the constant `"custom-platform"` supplied as `PLATFORM`, the first call returns
`"linux-armv7l"` when `uname` reports `("Linux", "armv7l")` and `"unknown"` when it fails,
not the constant. -/
theorem c5_android_build_ignores_constant :
    observe (Python3Alpha.Py_GetPlatform ⟨true, some (ascii "custom-platform")⟩)
        Python3Alpha.XPLATFORM_init (some ⟨ascii "Linux", ascii "armv7l"⟩)
      = .ok (ascii "linux-armv7l", cached (ascii "linux-armv7l"))
    ∧ observe (Python3Alpha.Py_GetPlatform ⟨true, some (ascii "custom-platform")⟩)
        Python3Alpha.XPLATFORM_init none
      = .ok (ascii "unknown", Python3Alpha.XPLATFORM_init)
    ∧ ascii "linux-armv7l" ≠ ascii "custom-platform"
    ∧ ascii "unknown" ≠ ascii "custom-platform" := by
  decide

/-- C5, amended: in a build without `ANDROID`, for every NUL-free string constant `c`
supplied as `PLATFORM`, every call returns a pointer to `c`, whatever the `uname` outcome
and whatever the memory left by earlier calls, and any run of calls yields `c` each time;
with `ANDROID` defined the python3-alpha variant does not read the macro and is the
ANDROID function.  Both variants. -/
theorem c5_constant_returned_without_android (c : List Nat) (hc : IsCStr c) (mem : Buffer)
    (os : List (Option utsname)) :
    ((∀ o, PythonBuild.Py_GetPlatform (.generic (some c)) mem o = .ok (.literal c, mem))
      ∧ trace (PythonBuild.Py_GetPlatform (.generic (some c))) mem os
          = os.map (fun _ => .ok (c, mem)))
    ∧ ((∀ o, Python3Alpha.Py_GetPlatform ⟨false, some c⟩ mem o = .ok (.literal c, mem))
      ∧ trace (Python3Alpha.Py_GetPlatform ⟨false, some c⟩) mem os
          = os.map (fun _ => .ok (c, mem)))
    ∧ (∀ d, Python3Alpha.Py_GetPlatform ⟨true, d⟩ = Python3Alpha.Android.Py_GetPlatform) := by
  refine ⟨⟨fun _ => rfl, ?_⟩, ⟨fun _ => rfl, ?_⟩, fun d => ?_⟩
  · rw [trace_generic2]
    simp only [PythonBuild.Generic.PLATFORM, takeWhile_isCStr c hc]
  · rw [trace_generic3]
    simp only [Python3Alpha.Generic.PLATFORM, takeWhile_isCStr c hc]
  · rw [android_build3, variants_agree]

/-- C5 amended, at the constant `"custom-platform"`, on the array left by an earlier
ANDROID-style population and under three different `uname` outcomes. -/
theorem c5_custom_platform :
    IsCStr (ascii "custom-platform")
    ∧ trace (Python3Alpha.Py_GetPlatform ⟨false, some (ascii "custom-platform")⟩)
        (cached (ascii "linux-armv7l"))
        [none, some (utsname.mk (ascii "Linux") (ascii "armv7l")),
          some (utsname.mk (ascii "Linux") (List.replicate 20 97))]
      = [none, some (utsname.mk (ascii "Linux") (ascii "armv7l")),
          some (utsname.mk (ascii "Linux") (List.replicate 20 97))].map
          (fun _ => .ok (ascii "custom-platform", cached (ascii "linux-armv7l"))) :=
  ⟨by decide, (c5_constant_returned_without_android (ascii "custom-platform") (by decide)
    (cached (ascii "linux-armv7l"))
    [none, some (utsname.mk (ascii "Linux") (ascii "armv7l")),
      some (utsname.mk (ascii "Linux") (List.replicate 20 97))]).2.1.2⟩

/-- C6, refuted as stated: built without `ANDROID` and with the constant `"Darwin"`
supplied as `PLATFORM`, either variant returns `"Darwin"`, which is not `"unknown"`, has
an uppercase letter and has no hyphen. -/
theorem c6_static_constant_outside_contract :
    observe (PythonBuild.Py_GetPlatform (.generic (some (ascii "Darwin"))))
        PythonBuild.PLATFORM_init none
      = .ok (ascii "Darwin", PythonBuild.PLATFORM_init)
    ∧ observe (Python3Alpha.Py_GetPlatform ⟨false, some (ascii "Darwin")⟩)
        Python3Alpha.XPLATFORM_init none
      = .ok (ascii "Darwin", Python3Alpha.XPLATFORM_init)
    ∧ ascii "Darwin" ≠ ascii "unknown"
    ∧ (∃ x ∈ ascii "Darwin", IsUpper x)
    ∧ 45 ∉ ascii "Darwin" := by
  decide

/-- C6, amended: in every run from the initial array on `uname` outcomes within capacity,
every call returns a value, and that value is the literal `"unknown"`, or (build without
`ANDROID`) the constant supplied as `PLATFORM`, or (build with `ANDROID`) a string that is
NUL-terminated inside the array, has no uppercase ASCII letter, has length
`len s + 1 + len m` and `'-'` at index `len s`, where `(s, m)` is the pair reported by the
query that populated the array.  Both variants. -/
theorem c6_return_contract (os : List (Option utsname))
    (hcap : ∀ o ∈ os, WithinCapacity o) :
    (∀ (b : PythonBuild.Build) (r : Except Fault (List Nat × Buffer)),
      r ∈ trace (PythonBuild.Py_GetPlatform b) PythonBuild.PLATFORM_init os →
      ∃ str mem, r = .ok (str, mem)
        ∧ (str = unknown
          ∨ (∃ c, b = .generic (some c) ∧ str = c.takeWhile (fun x => x ≠ 0))
          ∨ (b = .android ∧ ∃ s m, PopulatedBy os s m ∧ HyphenJoined s m str mem)))
    ∧ (∀ (b : Python3Alpha.Build) (r : Except Fault (List Nat × Buffer)),
      r ∈ trace (Python3Alpha.Py_GetPlatform b) Python3Alpha.XPLATFORM_init os →
      ∃ str mem, r = .ok (str, mem)
        ∧ (str = unknown
          ∨ (b.ANDROID = false ∧ ∃ c, b.PLATFORM = some c ∧ str = c.takeWhile (fun x => x ≠ 0))
          ∨ (b.ANDROID = true ∧ ∃ s m, PopulatedBy os s m ∧ HyphenJoined s m str mem))) := by
  constructor
  · intro b r hr
    cases b with
    | android =>
      rw [android_build2, init_eq_cached] at hr
      obtain ⟨str, mem, h, h1⟩ := android_entry_contract os hcap r hr
      refine ⟨str, mem, h, ?_⟩
      rcases h1 with h1 | h1
      · exact Or.inl h1
      · exact Or.inr (Or.inr ⟨rfl, h1⟩)
    | generic d =>
      rw [trace_generic2] at hr
      obtain ⟨_, _, h⟩ := List.mem_map.mp hr
      refine ⟨_, _, h.symm, ?_⟩
      cases d with
      | none => exact Or.inl (takeWhile_isCStr unknown isCStr_unknown)
      | some c => exact Or.inr (Or.inl ⟨c, rfl, rfl⟩)
  · intro b r hr
    obtain ⟨a, d⟩ := b
    cases a with
    | true =>
      rw [android_build3, xinit_eq_cached] at hr
      obtain ⟨str, mem, h, h1⟩ := android_entry_contract os hcap r hr
      refine ⟨str, mem, h, ?_⟩
      rcases h1 with h1 | h1
      · exact Or.inl h1
      · exact Or.inr (Or.inr ⟨rfl, h1⟩)
    | false =>
      rw [trace_generic3] at hr
      obtain ⟨_, _, h⟩ := List.mem_map.mp hr
      refine ⟨_, _, h.symm, ?_⟩
      cases d with
      | none => exact Or.inl (takeWhile_isCStr unknown isCStr_unknown)
      | some c => exact Or.inr (Or.inl ⟨rfl, c, rfl, rfl⟩)

/-- C6 amended, on a failed query followed by a query reporting `("Linux", "armv7l")`, in
the ANDROID build of python3-alpha: the second call returns `"linux-armv7l"`. -/
theorem c6_fail_then_linux_armv7l :
    (∀ o ∈ [none, some (utsname.mk (ascii "Linux") (ascii "armv7l"))], WithinCapacity o)
    ∧ ∃ str mem, (.ok (ascii "linux-armv7l", cached (ascii "linux-armv7l"))
          : Except Fault (List Nat × Buffer)) = .ok (str, mem)
        ∧ (str = unknown
          ∨ ((⟨true, none⟩ : Python3Alpha.Build).ANDROID = false
              ∧ ∃ c, (⟨true, none⟩ : Python3Alpha.Build).PLATFORM = some c
                ∧ str = c.takeWhile (fun x => x ≠ 0))
          ∨ ((⟨true, none⟩ : Python3Alpha.Build).ANDROID = true
              ∧ ∃ s m, PopulatedBy [none, some (utsname.mk (ascii "Linux") (ascii "armv7l"))] s m
                ∧ HyphenJoined s m str mem)) :=
  ⟨by decide, (c6_return_contract [none, some (utsname.mk (ascii "Linux") (ascii "armv7l"))]
    (by decide)).2 ⟨true, none⟩ (.ok (ascii "linux-armv7l", cached (ascii "linux-armv7l")))
    (by decide)⟩

/-- C7: under `len s + 1 + len m ≤ 19`, a populating call on the all-zero 20-byte array
raises no fault, hence touches indices `0..19` only (any access at an index `≥ 20` is a
fault): each of the three `strcat` calls succeeds; the lowercasing loop stops with `i` at
index `len s + 1 + len m ≤ 19`, where the array holds the terminating NUL (the loop
never exhausts its budget, and a lowercased byte is NUL exactly when the byte was NUL, so
the NUL bytes of the array stay exactly where they were); and the returned string has
length at most 19.  Both variants. -/
theorem c7_populating_call_stays_in_bounds (s m : List Nat) (hs : IsCStr s) (hm : IsCStr m)
    (hlen : s.length + 1 + m.length ≤ 19) :
    ((∀ (buf : Buffer) (i v : Nat), buf.length = 20 → 20 ≤ i →
        rd buf i = .error (.oobRead i) ∧ wr buf i v = .error (.oobWrite i))
      ∧ (∀ x, x < 256 → (tolower x % 256 = 0 ↔ x = 0))
      ∧ ∀ buf : Buffer, lowerLoop (buf.length + 1) buf 0 ≠ .error .outOfFuel)
    ∧ (strcat PythonBuild.PLATFORM_init s = .ok (cached s)
      ∧ strcat (cached s) hyphen = .ok (cached (s ++ hyphen))
      ∧ strcat (cached (s ++ hyphen)) m = .ok (cached (s ++ hyphen ++ m)))
    ∧ (lowerLoop ((cached (s ++ hyphen ++ m)).length + 1) (cached (s ++ hyphen ++ m)) 0
          = .ok (cached (platformString s m), s.length + 1 + m.length)
      ∧ (cached (platformString s m))[s.length + 1 + m.length]? = some 0
      ∧ ∀ i : Nat, (cached (platformString s m))[i]? = some 0
          ↔ (cached (s ++ hyphen ++ m))[i]? = some 0)
    ∧ (PythonBuild.Android.Py_GetPlatform PythonBuild.PLATFORM_init (some ⟨s, m⟩)
          = .ok (.buffer, cached (platformString s m))
      ∧ Python3Alpha.Android.Py_GetPlatform Python3Alpha.XPLATFORM_init (some ⟨s, m⟩)
          = .ok (.buffer, cached (platformString s m)))
    ∧ (cstring (cached (platformString s m)) .buffer = .ok (platformString s m)
      ∧ (platformString s m).length ≤ 19
      ∧ (cached (platformString s m)).length = 20) := by
  have hsh := hs.append isCStr_hyphen
  have hshm := hsh.append hm
  have hl3 : (s ++ hyphen ++ m).length = s.length + 1 + m.length := by
    simp [hyphen_eq]
    omega
  have hp := isCStr_platformString s m hs hm
  have hpl := platformString_length s m
  refine ⟨⟨?_, tolower_eq_zero, fun buf => lowerLoop_budget _ buf 0 (by omega) (by omega)⟩,
    ⟨?_, ?_, ?_⟩, ⟨?_, ?_, ?_⟩, ⟨?_, ?_⟩, ?_, ?_, ?_⟩
  · intro buf i v hbuf hi
    constructor
    · have hnone : buf[i]? = none := List.getElem?_eq_none (by omega)
      simp only [rd, hnone]
    · simp only [wr]
      rw [if_neg (by omega)]
  · rw [init_eq_cached]
    simpa using strcat_cached [] s IsCStr.nil hs (by simp; omega)
  · exact strcat_cached s hyphen hs isCStr_hyphen (by simp [hyphen_eq]; omega)
  · exact strcat_cached (s ++ hyphen) m hsh hm (by simp [hyphen_eq]; omega)
  · have h := lowerLoop_cached (s ++ hyphen ++ m) hshm (by omega)
    rw [hl3] at h
    exact h
  · rw [cached_getElem_zero _ hp (by omega)]
    omega
  · intro i
    rw [cached_getElem_zero _ hp (by omega), cached_getElem_zero _ hshm (by omega), hpl, hl3]
  · rw [init_eq_cached]
    exact call_empty_success s m hs hm hlen
  · rw [variants_agree, xinit_eq_cached]
    exact call_empty_success s m hs hm hlen
  · exact cstring_cached _ hp (by omega)
  · omega
  · exact cached_length _ (by omega)

/-- C7, at `("Linux", "armv7l")`: the call succeeds and the string has 12 bytes. -/
theorem c7_linux_armv7l :
    (IsCStr (ascii "Linux") ∧ IsCStr (ascii "armv7l")
      ∧ (ascii "Linux").length + 1 + (ascii "armv7l").length ≤ 19)
    ∧ (PythonBuild.Android.Py_GetPlatform PythonBuild.PLATFORM_init
          (some ⟨ascii "Linux", ascii "armv7l"⟩)
          = .ok (.buffer, cached (platformString (ascii "Linux") (ascii "armv7l")))
      ∧ Python3Alpha.Android.Py_GetPlatform Python3Alpha.XPLATFORM_init
          (some ⟨ascii "Linux", ascii "armv7l"⟩)
          = .ok (.buffer, cached (platformString (ascii "Linux") (ascii "armv7l")))) :=
  ⟨by decide, (c7_populating_call_stays_in_bounds (ascii "Linux") (ascii "armv7l")
    (by decide) (by decide) (by decide)).2.2.2.1⟩

/-- C8: the ANDROID build makes no bounds check: for NUL-free byte strings `s`, `m` with
`len s + 1 + len m ≥ 20` a populating call on the all-zero array attempts a store at
index 20, outside the 20-byte array, so it neither truncates nor returns `"unknown"`; and
the call faults exactly when `len s + 1 + len m ≥ 20`.  Both variants. -/
theorem c8_no_bounds_check (s m : List Nat) (hs : IsCStr s) (hm : IsCStr m) :
    (20 ≤ s.length + 1 + m.length →
      PythonBuild.Android.Py_GetPlatform PythonBuild.PLATFORM_init (some ⟨s, m⟩)
          = .error (.oobWrite 20)
      ∧ Python3Alpha.Android.Py_GetPlatform Python3Alpha.XPLATFORM_init (some ⟨s, m⟩)
          = .error (.oobWrite 20))
    ∧ ((∃ e, PythonBuild.Android.Py_GetPlatform PythonBuild.PLATFORM_init (some ⟨s, m⟩)
          = .error e) ↔ 20 ≤ s.length + 1 + m.length)
    ∧ ((∃ e, Python3Alpha.Android.Py_GetPlatform Python3Alpha.XPLATFORM_init (some ⟨s, m⟩)
          = .error e) ↔ 20 ≤ s.length + 1 + m.length) := by
  rw [variants_agree, init_eq_cached, xinit_eq_cached]
  have hiff : (∃ e, PythonBuild.Android.Py_GetPlatform (cached []) (some ⟨s, m⟩) = .error e)
      ↔ 20 ≤ s.length + 1 + m.length := by
    constructor
    · intro ⟨e, he⟩
      by_contra hlt
      rw [call_empty_success s m hs hm (by omega)] at he
      cases he
    · intro h
      exact ⟨_, call_empty_overflow s m hs hm h⟩
  exact ⟨fun h => ⟨call_empty_overflow s m hs hm h, call_empty_overflow s m hs hm h⟩,
    hiff, hiff⟩

/-- C8, at `"Linux"` with a machine name of twenty letters `a`: the call faults on a store
at index 20. -/
theorem c8_linux_oversized_machine :
    (IsCStr (ascii "Linux") ∧ IsCStr (List.replicate 20 97)
      ∧ 20 ≤ (ascii "Linux").length + 1 + (List.replicate 20 97).length)
    ∧ PythonBuild.Android.Py_GetPlatform PythonBuild.PLATFORM_init
        (some ⟨ascii "Linux", List.replicate 20 97⟩) = .error (.oobWrite 20)
    ∧ Python3Alpha.Android.Py_GetPlatform Python3Alpha.XPLATFORM_init
        (some ⟨ascii "Linux", List.replicate 20 97⟩) = .error (.oobWrite 20) :=
  ⟨by decide, (c8_no_bounds_check (ascii "Linux") (List.replicate 20 97) (by decide)
    (by decide)).1 (by decide)⟩

/-- C9: the two variants are observationally equivalent.  Their arrays start equal (the
array with initialiser `{0}` and the one without initialiser are both zero-filled); for
every list of `uname` outcomes fed to successive calls from the initial arrays the
ANDROID functions yield the same observations call by call (returned string and array
contents after the call, or the same fault); and the non-ANDROID functions return the
same constant, whatever the definition of the macro `PLATFORM`. -/
theorem c9_variants_equivalent :
    PythonBuild.PLATFORM_init = Python3Alpha.XPLATFORM_init
    ∧ (∀ os, trace PythonBuild.Android.Py_GetPlatform PythonBuild.PLATFORM_init os
        = trace Python3Alpha.Android.Py_GetPlatform Python3Alpha.XPLATFORM_init os)
    ∧ (∀ os d, trace (PythonBuild.Py_GetPlatform .android) PythonBuild.PLATFORM_init os
        = trace (Python3Alpha.Py_GetPlatform ⟨true, d⟩) Python3Alpha.XPLATFORM_init os)
    ∧ (∀ d, PythonBuild.Generic.Py_GetPlatform d = Python3Alpha.Generic.Py_GetPlatform d)
    ∧ (∀ d mem os, trace (PythonBuild.Py_GetPlatform (.generic d)) mem os
        = trace (Python3Alpha.Py_GetPlatform ⟨false, d⟩) mem os) := by
  refine ⟨by decide, ?_, ?_, ?_, ?_⟩
  · intro os
    rw [variants_agree, init_eq_cached, xinit_eq_cached]
  · intro os d
    rw [android_build2, android_build3, init_eq_cached, xinit_eq_cached]
  · intro d
    rfl
  · intro d mem os
    rw [trace_generic2, trace_generic3]
    rfl

/-- C10: in the ANDROID build `"unknown"` is never memoized.  A call on the all-zero array
whose query fails returns `"unknown"` and leaves the array all-zero; after any number `n`
of such calls, a call whose query succeeds with `(s, m)`, `len s + 1 + len m ≤ 19`,
queries again and returns `lower (s ++ "-" ++ m)`, which is not `"unknown"`, and populates
the array: so the array may be populated on a call later than the first.  Both
variants. -/
theorem c10_unknown_not_memoized (n : Nat) (s m : List Nat) (hs : IsCStr s) (hm : IsCStr m)
    (hlen : s.length + 1 + m.length ≤ 19) :
    (PythonBuild.Android.Py_GetPlatform PythonBuild.PLATFORM_init none
        = .ok (.literal unknown, PythonBuild.PLATFORM_init)
      ∧ trace PythonBuild.Android.Py_GetPlatform PythonBuild.PLATFORM_init
          (List.replicate n none ++ [some ⟨s, m⟩])
        = List.replicate n (.ok (unknown, PythonBuild.PLATFORM_init))
          ++ [.ok (platformString s m, cached (platformString s m))])
    ∧ (Python3Alpha.Android.Py_GetPlatform Python3Alpha.XPLATFORM_init none
        = .ok (.literal unknown, Python3Alpha.XPLATFORM_init)
      ∧ trace Python3Alpha.Android.Py_GetPlatform Python3Alpha.XPLATFORM_init
          (List.replicate n none ++ [some ⟨s, m⟩])
        = List.replicate n (.ok (unknown, Python3Alpha.XPLATFORM_init))
          ++ [.ok (platformString s m, cached (platformString s m))])
    ∧ platformString s m ≠ unknown := by
  rw [variants_agree, init_eq_cached, xinit_eq_cached]
  have h : trace PythonBuild.Android.Py_GetPlatform (cached [])
      (List.replicate n none ++ [some ⟨s, m⟩])
      = List.replicate n (.ok (unknown, cached []))
        ++ [.ok (platformString s m, cached (platformString s m))] := by
    rw [trace_failures]
    simp only [trace, observe_empty_success s m hs hm hlen]
  exact ⟨⟨call_empty_fail, h⟩, ⟨call_empty_fail, h⟩, platformString_ne_unknown s m⟩

/-- C10, with one failed query followed by a query reporting `("Linux", "armv7l")`. -/
theorem c10_fail_then_linux_armv7l :
    (IsCStr (ascii "Linux") ∧ IsCStr (ascii "armv7l")
      ∧ (ascii "Linux").length + 1 + (ascii "armv7l").length ≤ 19)
    ∧ trace PythonBuild.Android.Py_GetPlatform PythonBuild.PLATFORM_init
        (List.replicate 1 none ++ [some ⟨ascii "Linux", ascii "armv7l"⟩])
      = List.replicate 1 (.ok (unknown, PythonBuild.PLATFORM_init))
        ++ [.ok (platformString (ascii "Linux") (ascii "armv7l"),
              cached (platformString (ascii "Linux") (ascii "armv7l")))] :=
  ⟨by decide, (c10_unknown_not_memoized 1 (ascii "Linux") (ascii "armv7l") (by decide)
    (by decide) (by decide)).1.2⟩

end GetPlatform
